import Mathlib

/-!
Verification of the transcript consolidation and verification engine in
`src/controllers/data_processor.py` and `src/controllers/schema.py`.

The Python values flowing through the processor (JSON-like data produced by
the extraction client) are embedded as the inductive type `Value`; Python
dictionaries are association lists in insertion order.  Python `float`
numbers are modelled as rationals (`ℚ`): every numeric literal occurring in
the program and the spec examples is exactly representable, and exceptions
are modelled by `Option`/sum results.
-/

/-- A Python value as it occurs in extracted transcript data: `None`,
booleans, numbers (modelled as `ℚ`), strings, lists and dicts. -/
inductive Value where
  | null
  | bool (b : Bool)
  | num (q : ℚ)
  | str (s : String)
  | list (vs : List Value)
  | dict (kvs : List (String × Value))

/-- A Python dict with string keys, as an association list in insertion
order (Python dicts preserve insertion order and have unique keys). -/
abbrev PyDict := List (String × Value)

/-- Python truthiness of a value (`bool(v)`). -/
def Value.truthy : Value → Bool
  | .null => false
  | .bool b => b
  | .num q => decide (q ≠ 0)
  | .str s => decide (s ≠ "")
  | .list vs => !vs.isEmpty
  | .dict kvs => !kvs.isEmpty

/-- Whether a value is Python `None`. -/
def Value.isNull : Value → Bool
  | .null => true
  | _ => false

/-- Whether a value is a Python dict (`isinstance(v, dict)`). -/
def Value.isDict : Value → Bool
  | .dict _ => true
  | _ => false

/-- Dict lookup `d[k]` / `d.get(k)`: the value at the first matching key. -/
def pyGet? (d : PyDict) (k : String) : Option Value :=
  match d with
  | [] => none
  | (k', v) :: rest => if k' = k then some v else pyGet? rest k

/-- Python `k in d`. -/
def pyContains (d : PyDict) (k : String) : Bool :=
  (pyGet? d k).isSome

/-- Python `d.get(k, dft)`. -/
def pyGetD (d : PyDict) (k : String) (dft : Value) : Value :=
  (pyGet? d k).getD dft

/-- Dict assignment `d[k] = v`: overwrite in place when the key exists
(keeping its position), append otherwise — Python dict semantics. -/
def pySet (d : PyDict) (k : String) (v : Value) : PyDict :=
  match d with
  | [] => [(k, v)]
  | (k', v') :: rest => if k' = k then (k, v) :: rest else (k', v') :: pySet rest k v

/-- The consolidated accumulator built by `consolidate_page_data`: six
singleton sections (dicts) and two repeating sections (lists), initialised
empty, in the insertion order of the Python literal at the top of the
function. -/
structure Transcript where
  student_information : PyDict
  institution_information : PyDict
  gpa_summary_info : PyDict
  degree_information : PyDict
  honors_and_awards : List Value
  transfer_credits : PyDict
  transcript_totals_info : PyDict
  academic_records_info : List Value

/-- The empty accumulator `consolidated` initialised at the top of
`consolidate_page_data`. -/
def initTranscript : Transcript :=
  { student_information := [], institution_information := [],
    gpa_summary_info := [], degree_information := [],
    honors_and_awards := [], transfer_credits := [],
    transcript_totals_info := [], academic_records_info := [] }

/-- The write condition of the singleton-section merge loop:
`value is not None and (key not in consolidated[section] or
consolidated[section][key] is None)`. -/
def writeCond (acc : PyDict) (k : String) (v : Value) : Bool :=
  !v.isNull &&
    (match pyGet? acc k with
     | none => true
     | some w => w.isNull)

/-- The inner loop `for key, value in page_data[section].items()` of the
singleton-section merge, folded left over the page section's items. -/
def mergeItems (acc : PyDict) : List (String × Value) → PyDict
  | [] => acc
  | (k, v) :: rest =>
      mergeItems (if writeCond acc k v then pySet acc k v else acc) rest

/-- One singleton section of one page:
`if section in page_data and page_data[section]: for key, value in ...`.
A truthy non-dict section value makes `.items()` raise, modelled as `none`;
an absent or falsy section value leaves the accumulator unchanged. -/
def mergeSection? (acc : PyDict) (pv : Option Value) : Option PyDict :=
  match pv with
  | none => some acc
  | some v =>
      if v.truthy then
        match v with
        | .dict kvs => some (mergeItems acc kvs)
        | _ => none
      else some acc

/-- One repeating section of one page:
`if sec in page_data and page_data[sec]: consolidated[sec].extend(...)`.
A truthy value that is not a list is modelled as an error (`none`); the
schema-shaped pages of interest always carry lists here. -/
def extendSection? (acc : List Value) (pv : Option Value) : Option (List Value) :=
  match pv with
  | none => some acc
  | some v =>
      if v.truthy then
        match v with
        | .list vs => some (acc ++ vs)
        | _ => none
      else some acc

/-- The body of `for page_data in page_extractions` in
`consolidate_page_data`: skip falsy pages, merge the six singleton sections
(first-non-null-wins) and extend the two repeating sections. -/
def consolidateStep (acc : Transcript) (page : PyDict) : Option Transcript :=
  if page.isEmpty then some acc
  else
    Option.bind (mergeSection? acc.student_information (pyGet? page "student_information")) fun si =>
    Option.bind (mergeSection? acc.institution_information (pyGet? page "institution_information")) fun ii =>
    Option.bind (mergeSection? acc.gpa_summary_info (pyGet? page "gpa_summary_info")) fun gp =>
    Option.bind (mergeSection? acc.degree_information (pyGet? page "degree_information")) fun dg =>
    Option.bind (mergeSection? acc.transfer_credits (pyGet? page "transfer_credits")) fun tc =>
    Option.bind (mergeSection? acc.transcript_totals_info (pyGet? page "transcript_totals_info")) fun tt =>
    Option.bind (extendSection? acc.academic_records_info (pyGet? page "academic_records_info")) fun ar =>
    Option.bind (extendSection? acc.honors_and_awards (pyGet? page "honors_and_awards")) fun ha =>
    some { student_information := si, institution_information := ii,
           gpa_summary_info := gp, degree_information := dg,
           honors_and_awards := ha, transfer_credits := tc,
           transcript_totals_info := tt, academic_records_info := ar }

/-- The page loop of `consolidate_page_data`, folded left. -/
def foldPages (acc : Transcript) : List PyDict → Option Transcript
  | [] => some acc
  | p :: ps => Option.bind (consolidateStep acc p) fun acc' => foldPages acc' ps

/-- Python `str()` of the values that can appear in a course key.  The
rendering of numbers is simplified to integer-or-fraction form and that of
containers to a placeholder: only the string cases are exercised by
schema-shaped records, whose `course_id`/`year_term` are strings. -/
def pyStr : Value → String
  | .null => "None"
  | .bool b => if b then "True" else "False"
  | .num q => if q.den = 1 then toString q.num else toString q.num ++ "/" ++ toString q.den
  | .str s => s
  | .list _ => "<list>"
  | .dict _ => "<dict>"

/-- Python `record.get(k, dft)` on an academic-record entry: raises
(`none`) when the entry is not a dict. -/
def recGet? (r : Value) (k : String) (dft : Value) : Option Value :=
  match r with
  | .dict kvs => some (pyGetD kvs k dft)
  | _ => none

/-- The deduplication key
`f"{record.get('course_id', '')}-{record.get('year_term', '')}"`. -/
def courseKey? (r : Value) : Option String :=
  Option.bind (recGet? r "course_id" (.str "")) fun c =>
  Option.bind (recGet? r "year_term" (.str "")) fun y =>
  some (pyStr c ++ "-" ++ pyStr y)

/-- The duplicate-removal loop of `consolidate_page_data`: keep a record
only the first time its course key is seen. -/
def dedupRecords? (seen : List String) : List Value → Option (List Value)
  | [] => some []
  | r :: rs =>
      Option.bind (courseKey? r) fun key =>
      if key ∈ seen then dedupRecords? seen rs
      else Option.bind (dedupRecords? (key :: seen) rs) fun rest => some (r :: rest)

/-- Embedding of `TranscriptProcessor.consolidate_page_data` from
`src/controllers/data_processor.py`: merge the pages in order, then
deduplicate the accumulated academic records.  `none` models the re-raised
exception of the `except` branch. -/
def consolidate_page_data (pages : List PyDict) : Option Transcript :=
  Option.bind (foldPages initTranscript pages) fun acc =>
  Option.bind (dedupRecords? [] acc.academic_records_info) fun recs =>
  some { acc with academic_records_info := recs }

/-- The list of singleton-section names iterated by the merge loop. -/
def singletonSections : List String :=
  ["student_information", "institution_information", "gpa_summary_info",
   "degree_information", "transfer_credits", "transcript_totals_info"]

/-- The singleton section of a transcript with the given name (empty dict
for a non-singleton name). -/
def Transcript.sectionOf (t : Transcript) : String → PyDict
  | "student_information" => t.student_information
  | "institution_information" => t.institution_information
  | "gpa_summary_info" => t.gpa_summary_info
  | "degree_information" => t.degree_information
  | "transfer_credits" => t.transfer_credits
  | "transcript_totals_info" => t.transcript_totals_info
  | _ => []

/-- Value of a digit string, folded left. -/
def digitsToNat (acc : ℕ) : List Char → ℕ
  | [] => acc
  | c :: rest => digitsToNat (acc * 10 + (c.toNat - Char.toNat '0')) rest

/-- Parsing of an unsigned float literal: digits with at most one decimal
point and at least one digit.  Exponents, underscores, surrounding
whitespace and `inf`/`nan` are not modelled. -/
def parseUnsigned (cs : List Char) : Option ℚ :=
  let ip := cs.takeWhile Char.isDigit
  let rest := cs.dropWhile Char.isDigit
  match rest with
  | [] => if ip.isEmpty then none else some (digitsToNat 0 ip : ℚ)
  | '.' :: fp =>
      if fp.all Char.isDigit && (!ip.isEmpty || !fp.isEmpty) then
        some ((digitsToNat 0 ip : ℚ) + (digitsToNat 0 fp : ℚ) / (10 ^ fp.length))
      else none
  | _ => none

/-- Parsing of a float literal with optional sign. -/
def parseFloat (s : String) : Option ℚ :=
  match s.toList with
  | '-' :: rest => (parseUnsigned rest).map (fun q => -q)
  | '+' :: rest => parseUnsigned rest
  | cs => parseUnsigned cs

/-- Python `float(v)`: numbers and booleans convert, numeric strings parse,
everything else (`None`, lists, dicts, non-numeric strings) raises,
modelled as `none`. -/
def pyFloat : Value → Option ℚ
  | .num q => some q
  | .bool b => some (if b then 1 else 0)
  | .str s => parseFloat s
  | _ => none

/-- Python `v or 0`. -/
def orZero (v : Value) : Value :=
  if v.truthy then v else .num 0

/-- The coercion `float(record.get("credits_earned", 0) or 0)` for one record. -/
def creditOf? (r : Value) : Option ℚ :=
  Option.bind (recGet? r "credits_earned" (.num 0)) fun v =>
  pyFloat (orZero v)

/-- The sum `sum(float(record.get("credits_earned", 0) or 0) for record in recs)`,
added left to right from 0 as Python `sum` does, raising as soon as one
record's value does. -/
def sumCredits? (acc : ℚ) : List Value → Option ℚ
  | [] => some acc
  | r :: rs => Option.bind (creditOf? r) fun c => sumCredits? (acc + c) rs

/-- A hashable Python scalar as used for `year_term` and `course_level`
values in sets and dict keys.  Python's numeric cross-type equality
(`True == 1 == 1.0`) is modelled by mapping booleans to numbers. -/
inductive Scalar where
  | null
  | num (q : ℚ)
  | str (s : String)
deriving DecidableEq

/-- Hashing a value into a set or dict key position: unhashable containers
raise, modelled as `none`. -/
def toScalar? : Value → Option Scalar
  | .null => some .null
  | .bool b => some (.num (if b then 1 else 0))
  | .num q => some (.num q)
  | .str s => some (.str s)
  | .list _ => none
  | .dict _ => none

/-- The value `record.get("year_term", "")` as a set element. -/
def termOf? (r : Value) : Option Scalar :=
  Option.bind (recGet? r "year_term" (.str "")) toScalar?

/-- The value `record.get("course_level", "Unknown")` as a dict key. -/
def levelOf? (r : Value) : Option Scalar :=
  Option.bind (recGet? r "course_level" (.str "Unknown")) toScalar?

/-- The update `course_levels[level] = course_levels.get(level, 0) + 1`: increment in
place when the key exists, append otherwise. -/
def bumpCount (m : List (Scalar × ℕ)) (k : Scalar) : List (Scalar × ℕ) :=
  match m with
  | [] => [(k, 1)]
  | (k', n) :: rest => if k' = k then (k', n + 1) :: rest else (k', n) :: bumpCount rest k

/-- The course-distribution loop over the records' levels. -/
def countValues (ks : List Scalar) : List (Scalar × ℕ) :=
  ks.foldl bumpCount []

/-- The coercion `float(transcript_totals.get("overall_earned_hours", 0) or 0)` where
`transcript_totals = data.get("transcript_totals_info", {})`. -/
def reportedOf? (t : Transcript) : Option ℚ :=
  pyFloat (orZero (pyGetD t.transcript_totals_info "overall_earned_hours" (.num 0)))

/-- Python `abs` on a float, modelled on `ℚ`. -/
def ratAbs (q : ℚ) : ℚ :=
  if q < 0 then -q else q

/-- Python `round` to the nearest integer, ties to even, on the exact
rational value. -/
def roundHalfEven (q : ℚ) : ℤ :=
  if q - ⌊q⌋ < 1/2 then ⌊q⌋
  else if q - ⌊q⌋ > 1/2 then ⌊q⌋ + 1
  else if ⌊q⌋ % 2 = 0 then ⌊q⌋ else ⌊q⌋ + 1

/-- Python `round(x, 2)` on the exact rational value. -/
def round2 (q : ℚ) : ℚ :=
  (roundHalfEven (q * 100) : ℚ) / 100

/-- One leaf field counts as completed when
`value is not None and value != ""`. -/
def isCompleted (v : Value) : Bool :=
  match v with
  | .null => false
  | .str s => decide (s ≠ "")
  | _ => true

/-- The completeness loop `for section_name, section_data in data.items()`
over the consolidated dict in its insertion order: each dict section
contributes one slot per field, completed when non-null and
non-empty-string; each list section contributes one completed slot when
non-empty and nothing at all when empty. -/
def completenessCounts (t : Transcript) : ℕ × ℕ :=
  let dictCounts := fun (d : PyDict) (acc : ℕ × ℕ) =>
    (acc.1 + d.length, acc.2 + (d.filter (fun kv => isCompleted kv.2)).length)
  let listCounts := fun (l : List Value) (acc : ℕ × ℕ) =>
    if l.isEmpty then acc else (acc.1 + 1, acc.2 + 1)
  let c1 := dictCounts t.student_information (0, 0)
  let c2 := dictCounts t.institution_information c1
  let c3 := dictCounts t.gpa_summary_info c2
  let c4 := dictCounts t.degree_information c3
  let c5 := listCounts t.honors_and_awards c4
  let c6 := dictCounts t.transfer_credits c5
  let c7 := dictCounts t.transcript_totals_info c6
  listCounts t.academic_records_info c7

/-- The metrics dict built by `calculate_verification_metrics`.
`average_grade` is initialised to `None` and never updated, so it is
omitted from the embedding. -/
structure Metrics where
  total_courses : ℕ
  total_credits_calculated : ℚ
  gpa_consistency_check : Bool
  data_completeness_score : ℚ
  unique_terms : ℕ
  course_distribution : List (Scalar × ℕ)

/-- The `metrics` dict as initialised at the top of
`calculate_verification_metrics`, before any update. -/
def baseMetrics (t : Transcript) : Metrics :=
  { total_courses := t.academic_records_info.length, total_credits_calculated := 0,
    gpa_consistency_check := false, data_completeness_score := 0,
    unique_terms := 0, course_distribution := [] }

/-- The `if academic_records:` block of `calculate_verification_metrics`:
credit total, unique terms, course distribution and the GPA consistency
check, each able to raise. -/
def mainMetrics? (t : Transcript) : Option Metrics :=
  let recs := t.academic_records_info
  if recs.isEmpty then some (baseMetrics t)
  else
    Option.bind (sumCredits? 0 recs) fun total =>
    Option.bind (recs.mapM termOf?) fun terms =>
    Option.bind (recs.mapM levelOf?) fun levels =>
    Option.bind (reportedOf? t) fun reported =>
    some { baseMetrics t with
           total_credits_calculated := total,
           unique_terms := terms.dedup.length,
           course_distribution := countValues levels,
           gpa_consistency_check := decide (ratAbs (total - reported) < 1/2) }

/-- Embedding of `TranscriptProcessor.calculate_verification_metrics` from
`src/controllers/data_processor.py`.  `none` models the `except` branch
returning the empty dict; `some` carries the metrics of a normal return. -/
def calculate_verification_metrics (t : Transcript) : Option Metrics :=
  Option.bind (mainMetrics? t) fun m =>
  let counts := completenessCounts t
  if counts.1 = 0 then some m
  else some { m with data_completeness_score := round2 ((counts.2 : ℚ) / (counts.1 : ℚ) * 100) }

/-- The validation dict built by `validate_academic_integrity`. -/
structure Validation where
  credit_calculation_valid : Bool
  gpa_calculation_valid : Bool
  course_sequence_valid : Bool
  duplicate_courses_found : Bool
  warnings : List String

/-- The result of `validate_academic_integrity`: either the validation dict
of a normal return, or the error-marker dict built by the `except` branch. -/
inductive IntegrityResult where
  | ok (v : Validation)
  | error (msg : String)

/-- The duplicate-detection loop of `validate_academic_integrity`: one
warning per record whose course key was already seen; the flag latches and
the key is always added to the seen set. -/
def dupScan? (seen : List String) (found : Bool) (ws : List String) :
    List Value → Option (Bool × List String)
  | [] => some (found, ws)
  | r :: rs =>
      Option.bind (courseKey? r) fun key =>
      if key ∈ seen then
        dupScan? (key :: seen) true (ws ++ ["Duplicate course found: " ++ key]) rs
      else dupScan? (key :: seen) found ws rs

/-- The warning `f"Credit mismatch: calculated {c}, reported {r}"`, with
numbers rendered by `pyStr`'s simplified numeric rendering. -/
def creditMismatchMsg (c r : ℚ) : String :=
  "Credit mismatch: calculated " ++ pyStr (.num c) ++ ", reported " ++ pyStr (.num r)

/-- The `try` body of `validate_academic_integrity`. -/
def integrityChecks? (t : Transcript) : Option Validation :=
  let recs := t.academic_records_info
  Option.bind (dupScan? [] false [] recs) fun dw =>
  Option.bind (sumCredits? 0 recs) fun calculated =>
  Option.bind (reportedOf? t) fun reported =>
  if ratAbs (calculated - reported) < 1 then
    some { credit_calculation_valid := true, gpa_calculation_valid := false,
           course_sequence_valid := true, duplicate_courses_found := dw.1,
           warnings := dw.2 }
  else
    some { credit_calculation_valid := false, gpa_calculation_valid := false,
           course_sequence_valid := true, duplicate_courses_found := dw.1,
           warnings := dw.2 ++ [creditMismatchMsg calculated reported] }

/-- Embedding of `TranscriptProcessor.validate_academic_integrity` from
`src/controllers/data_processor.py`: the `except` branch returns a dict
carrying only an `error` field with the stringified exception, modelled by
`IntegrityResult.error`. -/
def validate_academic_integrity (t : Transcript) : IntegrityResult :=
  match integrityChecks? t with
  | some v => .ok v
  | none => .error "exception raised during integrity validation"

/-- The keys of `TRANSCRIPT_SCHEMA` in `src/controllers/schema.py`, in
insertion order: `required_keys = list(TRANSCRIPT_SCHEMA.keys())`. -/
def requiredKeys : List String :=
  ["student_information", "institution_information", "gpa_summary_info",
   "degree_information", "honors_and_awards", "transfer_credits",
   "transcript_totals_info", "academic_records_info"]

/-- Iterating a Python value with `for record in v`: lists yield their
elements, dicts their keys, strings their characters; anything else raises
(caught by the surrounding `except`, modelled as `none`). -/
def pyIter? : Value → Option (List Value)
  | .list vs => some vs
  | .dict kvs => some (kvs.map (fun kv => .str kv.1))
  | .str s => some (s.toList.map (fun c => .str (String.mk [c])))
  | _ => none

/-- Embedding of `validate_schema_compliance` from `src/controllers/schema.py`: false
when a required top-level key is missing, false when the truthy
academic-records value yields an element that is not a dict or cannot be
iterated (the `except` branch returns false), true otherwise. -/
def validate_schema_compliance (data : PyDict) : Bool :=
  if requiredKeys.any (fun k => !pyContains data k) then false
  else
    match pyGet? data "academic_records_info" with
    | some v =>
        if v.truthy then
          match pyIter? v with
          | some entries => entries.all Value.isDict
          | none => false
        else true
    | none => true

/-- Option fallback (`a` when it is `some`, otherwise `b`), used by the
spec-side first-non-null characterisation. -/
def optOr (a b : Option Value) : Option Value :=
  match a with
  | some v => some v
  | none => b

/-- Modelled from the spec: the first binding of field `k` to a non-null
value among a section's items, in item order. -/
def firstNonNullInItems (k : String) : List (String × Value) → Option Value
  | [] => none
  | (k', v) :: rest =>
      if k' = k && !v.isNull then some v else firstNonNullInItems k rest

/-- Modelled from the spec: the first non-null value for field `k` of
singleton section `s` encountered in page order; pages where the section
is absent or not a dict contribute nothing. -/
def firstNonNull (s k : String) : List PyDict → Option Value
  | [] => none
  | p :: ps =>
      match pyGet? p s with
      | some (.dict kvs) => optOr (firstNonNullInItems k kvs) (firstNonNull s k ps)
      | _ => firstNonNull s k ps

/-- The contribution of one page's section value to the spec-side
first-non-null scan. -/
def pageFirst (pv : Option Value) (k : String) : Option Value :=
  match pv with
  | some (.dict kvs) => firstNonNullInItems k kvs
  | _ => none

/-- Modelled from the spec: the `(course_id, year_term)` pair that the spec
names as the deduplication identity of an academic record. -/
def pairKey? (r : Value) : Option (Value × Value) :=
  Option.bind (recGet? r "course_id" (.str "")) fun c =>
  Option.bind (recGet? r "year_term" (.str "")) fun y =>
  some (c, y)

/-- Invariant of the merge accumulator: a lookup never yields `None`,
because only non-null values are ever written. -/
def noNullGet (d : PyDict) : Prop :=
  ∀ k v, pyGet? d k = some v → v.isNull = false

/-- Modelled from the spec: the credit total with a missing or null (or
otherwise falsy) `credits_earned` counted as 0, and a value whose coercion
fails also counted as 0. -/
def specCreditSum (recs : List Value) : ℚ :=
  (recs.map (fun r => (creditOf? r).getD 0)).sum

/-- Modelled from the spec: `overall_earned_hours` from the totals section,
0 when absent (or when its coercion fails). -/
def specReported (t : Transcript) : ℚ :=
  (reportedOf? t).getD 0

/-- Total leaf fields across the six singleton sections. -/
def singletonLeafTotal (t : Transcript) : ℕ :=
  t.student_information.length + t.institution_information.length +
  t.gpa_summary_info.length + t.degree_information.length +
  t.transfer_credits.length + t.transcript_totals_info.length

/-- Non-null, non-empty-string leaf fields across the six singleton
sections. -/
def singletonLeafCompleted (t : Transcript) : ℕ :=
  (t.student_information.filter (fun kv => isCompleted kv.2)).length +
  (t.institution_information.filter (fun kv => isCompleted kv.2)).length +
  (t.gpa_summary_info.filter (fun kv => isCompleted kv.2)).length +
  (t.degree_information.filter (fun kv => isCompleted kv.2)).length +
  (t.transfer_credits.filter (fun kv => isCompleted kv.2)).length +
  (t.transcript_totals_info.filter (fun kv => isCompleted kv.2)).length

/-- Number of non-empty repeating sections (0, 1 or 2). -/
def repeatingNonEmpty (t : Transcript) : ℕ :=
  (if t.honors_and_awards.isEmpty then 0 else 1) +
  (if t.academic_records_info.isEmpty then 0 else 1)

/-- Modelled from the spec: the completeness score with one denominator
slot per repeating section whether or not that section is empty (the
two repeating sections of a consolidated transcript are always present). -/
def claimCompletenessScore (t : Transcript) : ℚ :=
  let total := singletonLeafTotal t + 2
  let completed := singletonLeafCompleted t + repeatingNonEmpty t
  if total = 0 then 0 else round2 ((completed : ℚ) / (total : ℚ) * 100)

/-- A throwaway metrics record used only as the default of `Option.getD`
when naming the result of a computation already known to be `some`. -/
def defaultMetrics : Metrics :=
  { total_courses := 0, total_credits_calculated := 0,
    gpa_consistency_check := false, data_completeness_score := 0,
    unique_terms := 0, course_distribution := [] }

/-- A throwaway validation record in the same role as `defaultMetrics`. -/
def defaultValidation : Validation :=
  { credit_calculation_valid := false, gpa_calculation_valid := false,
    course_sequence_valid := true, duplicate_courses_found := false,
    warnings := [] }

/-- The three pages of the spec's first-non-null-wins scenario: a null
name, then "Alice", then "Bob". -/
def pagesFNN : List PyDict :=
  [[("student_information", .dict [("student_name", .null)])],
   [("student_information", .dict [("student_name", .str "Alice")])],
   [("student_information", .dict [("student_name", .str "Bob")])]]

/-- The consolidation of `pagesFNN` (a normal, exception-free run). -/
def tFNN : Transcript :=
  (consolidate_page_data pagesFNN).getD initTranscript

/-- Two academic records with the same `(course_id, year_term)` key but
different other fields. -/
def pagesDup : List PyDict :=
  [[("academic_records_info",
     .list [.dict [("course_id", .str "CS101"), ("year_term", .str "2020 Fall"),
                   ("grades", .str "A")],
            .dict [("course_id", .str "CS101"), ("year_term", .str "2020 Fall"),
                   ("grades", .str "B")]])]]

/-- The accumulated (pre-deduplication) state for `pagesDup`. -/
def accDup : Transcript :=
  (foldPages initTranscript pagesDup).getD initTranscript

/-- The consolidation of `pagesDup`. -/
def tDup : Transcript :=
  (consolidate_page_data pagesDup).getD initTranscript

/-- A consolidated transcript whose records carry `credits_earned` values
3, null, "bad", 4 — the spec's credit-sum scenario. -/
def tBadCredits : Transcript :=
  { initTranscript with
    academic_records_info :=
      [.dict [("credits_earned", .num 3)],
       .dict [("credits_earned", .null)],
       .dict [("credits_earned", .str "bad")],
       .dict [("credits_earned", .num 4)]] }

/-- Records with `credits_earned` 3, null, "" and 4: every coercion
succeeds (null and the falsy empty string count as 0), summing to 7. -/
def tGoodCredits : Transcript :=
  { initTranscript with
    academic_records_info :=
      [.dict [("credits_earned", .num 3)],
       .dict [("credits_earned", .null)],
       .dict [("credits_earned", .str "")],
       .dict [("credits_earned", .num 4)]] }

/-- Summed credits 10.4 against reported overall hours 10.0 (difference
0.4, inside the 0.5 tolerance). -/
def tGpaNear : Transcript :=
  { initTranscript with
    academic_records_info := [.dict [("credits_earned", .num 10.4)]],
    transcript_totals_info := [("overall_earned_hours", .num 10.0)] }

/-- Summed credits 10.4 against reported overall hours 9.5 (difference
0.9, outside the 0.5 tolerance). -/
def tGpaFar : Transcript :=
  { initTranscript with
    academic_records_info := [.dict [("credits_earned", .num 10.4)]],
    transcript_totals_info := [("overall_earned_hours", .num 9.5)] }

/-- One filled singleton leaf field and both repeating sections empty. -/
def tOneLeaf : Transcript :=
  { initTranscript with
    student_information := [("student_name", .str "X")] }

/-- Summed credits 3 against reported overall hours 10: a credit mismatch
far outside the 1.0 tolerance. -/
def tMismatch : Transcript :=
  { initTranscript with
    academic_records_info := [.dict [("credits_earned", .num 3)]],
    transcript_totals_info := [("overall_earned_hours", .num 10)] }

/-- A transcript on which both derived computations raise internally: the
only record's `credits_earned` is the non-numeric string "bad". -/
def tRaise : Transcript :=
  { initTranscript with
    academic_records_info := [.dict [("credits_earned", .str "bad")]] }

/-- A record whose hyphen-joined course key is "A-1-B" one way. -/
def recHyphenA : Value :=
  .dict [("course_id", .str "A-1"), ("year_term", .str "B")]

/-- A record whose hyphen-joined course key is "A-1-B" the other way. -/
def recHyphenB : Value :=
  .dict [("course_id", .str "A"), ("year_term", .str "1-B")]

/-- One page carrying the two colliding records. -/
def pagesHyphen : List PyDict :=
  [[("academic_records_info", .list [recHyphenA, recHyphenB])]]

/-- The consolidation of `pagesHyphen`. -/
def tHyphen : Transcript :=
  (consolidate_page_data pagesHyphen).getD initTranscript

/-- A page record with every required top-level key present, whose
academic-records list contains a scalar entry. -/
def dataScalarRecord : PyDict :=
  [("student_information", .dict []), ("institution_information", .dict []),
   ("gpa_summary_info", .dict []), ("degree_information", .dict []),
   ("honors_and_awards", .list []), ("transfer_credits", .dict []),
   ("transcript_totals_info", .dict []),
   ("academic_records_info", .list [.num 1])]

/-- A page record with every required top-level key present but every
value null — in particular a null academic-records section. -/
def dataNullSections : PyDict :=
  [("student_information", .null), ("institution_information", .null),
   ("gpa_summary_info", .null), ("degree_information", .null),
   ("honors_and_awards", .null), ("transfer_credits", .null),
   ("transcript_totals_info", .null), ("academic_records_info", .null)]

/-- A page record with every required top-level key present whose
academic-records list holds only dict entries. -/
def dataDictRecords : PyDict :=
  [("student_information", .dict []), ("institution_information", .dict []),
   ("gpa_summary_info", .dict []), ("degree_information", .dict []),
   ("honors_and_awards", .list []), ("transfer_credits", .dict []),
   ("transcript_totals_info", .dict []),
   ("academic_records_info", .list [.dict [("course_id", .str "CS101")]])]

/-- The metrics of the exception-free run on `tGoodCredits`. -/
def mGoodCredits : Metrics :=
  (calculate_verification_metrics tGoodCredits).getD defaultMetrics

/-- The metrics of the exception-free run on `tGpaNear`. -/
def mGpaNear : Metrics :=
  (calculate_verification_metrics tGpaNear).getD defaultMetrics

/-- The metrics of the exception-free run on `tGpaFar`. -/
def mGpaFar : Metrics :=
  (calculate_verification_metrics tGpaFar).getD defaultMetrics

/-- The metrics of the exception-free run on `tOneLeaf`. -/
def mOneLeaf : Metrics :=
  (calculate_verification_metrics tOneLeaf).getD defaultMetrics

/-- The validation of the exception-free run on `tMismatch`. -/
def vMismatch : Validation :=
  (integrityChecks? tMismatch).getD defaultValidation

theorem optOr_none (a : Option Value) : optOr a none = a := by
  cases a <;> rfl

theorem optOr_assoc (a b c : Option Value) :
    optOr (optOr a b) c = optOr a (optOr b c) := by
  cases a <;> rfl

theorem pyGet?_pySet_self (d : PyDict) (k : String) (v : Value) :
    pyGet? (pySet d k v) k = some v := by
  induction d with
  | nil => simp [pySet, pyGet?]
  | cons hd tl ih =>
    obtain ⟨k', v'⟩ := hd
    by_cases h : k' = k
    · simp [pySet, h, pyGet?]
    · simp [pySet, h, pyGet?, ih]

theorem pyGet?_pySet_ne (d : PyDict) (k k' : String) (v : Value) (h : k' ≠ k) :
    pyGet? (pySet d k v) k' = pyGet? d k' := by
  induction d with
  | nil => simp [pySet, pyGet?, Ne.symm h]
  | cons hd tl ih =>
    obtain ⟨k'', v''⟩ := hd
    by_cases hk : k'' = k
    · subst hk
      simp [pySet, pyGet?, Ne.symm h]
    · simp [pySet, hk, pyGet?, ih]

theorem writeStep_get (acc : PyDict) (k' : String) (v : Value) (h : noNullGet acc)
    (k : String) :
    pyGet? (if writeCond acc k' v then pySet acc k' v else acc) k
      = optOr (pyGet? acc k) (if k' = k && !v.isNull then some v else none) := by
  by_cases hv : v.isNull = true
  · have hw : writeCond acc k' v = false := by
      simp [writeCond, hv]
    simp [hw, hv, optOr_none]
  · have hv' : v.isNull = false := by simpa using hv
    by_cases hk : k' = k
    · subst hk
      cases hacc : pyGet? acc k' with
      | none =>
        have hw : writeCond acc k' v = true := by
          simp [writeCond, hv', hacc]
        simp [hw, pyGet?_pySet_self, hacc, hv', optOr]
      | some w =>
        have hwn : w.isNull = false := h _ _ hacc
        have hw : writeCond acc k' v = false := by
          simp [writeCond, hv', hacc, hwn]
        simp [hw, hacc, hv', optOr]
    · have hne : (k' = k && !v.isNull) = false := by
        simp [hk]
      rw [hne]
      by_cases hw : writeCond acc k' v = true
      · simp [hw, pyGet?_pySet_ne acc k' k v (fun hh => hk hh.symm), optOr_none]
      · simp [hw, optOr_none]

theorem writeStep_noNull (acc : PyDict) (k' : String) (v : Value) (h : noNullGet acc) :
    noNullGet (if writeCond acc k' v then pySet acc k' v else acc) := by
  by_cases hw : writeCond acc k' v = true
  · rw [if_pos hw]
    intro k w hkw
    by_cases hk : k = k'
    · subst hk
      rw [pyGet?_pySet_self] at hkw
      injection hkw with hwv
      have hcond := hw
      simp only [writeCond, Bool.and_eq_true, Bool.not_eq_true'] at hcond
      rw [← hwv]
      exact hcond.1
    · rw [pyGet?_pySet_ne acc k' k v hk] at hkw
      exact h _ _ hkw
  · rw [if_neg hw]
    exact h

theorem firstNonNullInItems_cons (k k' : String) (v : Value) (tl : List (String × Value)) :
    firstNonNullInItems k ((k', v) :: tl)
      = optOr (if k' = k && !v.isNull then some v else none) (firstNonNullInItems k tl) := by
  by_cases hc : (k' = k && !v.isNull) = true
  · simp [firstNonNullInItems, hc, optOr]
  · simp [firstNonNullInItems, hc, optOr]

theorem mergeItems_get (items : List (String × Value)) :
    ∀ acc : PyDict, noNullGet acc → ∀ k,
      pyGet? (mergeItems acc items) k
        = optOr (pyGet? acc k) (firstNonNullInItems k items) := by
  induction items with
  | nil =>
    intro acc _ k
    simp [mergeItems, firstNonNullInItems, optOr_none]
  | cons hd tl ih =>
    intro acc h k
    obtain ⟨k', v⟩ := hd
    rw [mergeItems, ih _ (writeStep_noNull acc k' v h) k, writeStep_get acc k' v h k,
        optOr_assoc, firstNonNullInItems_cons]

theorem mergeItems_noNull (items : List (String × Value)) :
    ∀ acc : PyDict, noNullGet acc → noNullGet (mergeItems acc items) := by
  induction items with
  | nil =>
    intro acc h
    simpa [mergeItems] using h
  | cons hd tl ih =>
    intro acc h
    obtain ⟨k', v⟩ := hd
    rw [mergeItems]
    exact ih _ (writeStep_noNull acc k' v h)

theorem mergeSection?_get (acc : PyDict) (pv : Option Value) (d' : PyDict)
    (hm : mergeSection? acc pv = some d') (h : noNullGet acc) :
    noNullGet d' ∧ ∀ k, pyGet? d' k = optOr (pyGet? acc k) (pageFirst pv k) := by
  cases pv with
  | none =>
    injection hm with hd'
    subst hd'
    exact ⟨h, fun k => (optOr_none _).symm⟩
  | some v =>
    cases v with
    | dict kvs =>
      simp only [mergeSection?] at hm
      split at hm
      · injection hm with hd'
        subst hd'
        refine ⟨mergeItems_noNull kvs acc h, fun k => ?_⟩
        rw [mergeItems_get kvs acc h k]
        rfl
      · injection hm with hd'
        subst hd'
        have hkvs : kvs = [] := by
          rename_i htr
          simpa [Value.truthy, List.isEmpty_iff] using htr
        subst hkvs
        exact ⟨h, fun k => (optOr_none _).symm⟩
    | null =>
      simp only [mergeSection?, Value.truthy] at hm
      injection hm with hd'
      subst hd'
      exact ⟨h, fun k => (optOr_none _).symm⟩
    | bool b =>
      simp only [mergeSection?] at hm
      split at hm
      · exact absurd hm (by simp)
      · injection hm with hd'
        subst hd'
        exact ⟨h, fun k => (optOr_none _).symm⟩
    | num q =>
      simp only [mergeSection?] at hm
      split at hm
      · exact absurd hm (by simp)
      · injection hm with hd'
        subst hd'
        exact ⟨h, fun k => (optOr_none _).symm⟩
    | str s =>
      simp only [mergeSection?] at hm
      split at hm
      · exact absurd hm (by simp)
      · injection hm with hd'
        subst hd'
        exact ⟨h, fun k => (optOr_none _).symm⟩
    | list vs =>
      simp only [mergeSection?] at hm
      split at hm
      · exact absurd hm (by simp)
      · injection hm with hd'
        subst hd'
        exact ⟨h, fun k => (optOr_none _).symm⟩

theorem consolidateStep_sec (acc : Transcript) (page : PyDict) (t : Transcript)
    (h : consolidateStep acc page = some t) (s : String)
    (hs : s ∈ singletonSections) :
    mergeSection? (acc.sectionOf s) (pyGet? page s) = some (t.sectionOf s) := by
  rw [consolidateStep] at h
  by_cases hp : page.isEmpty = true
  · rw [if_pos hp] at h
    injection h with ht
    subst ht
    have hpage : page = [] := List.isEmpty_iff.mp hp
    subst hpage
    rfl
  · rw [if_neg hp] at h
    simp only [Option.bind_eq_some, Option.some.injEq] at h
    obtain ⟨si, hsi, ii, hii, gp, hgp, dg, hdg, tc, htc, tt, htt, ar, har, ha, hha, ht⟩ := h
    subst ht
    simp only [singletonSections, List.mem_cons, List.not_mem_nil, or_false] at hs
    rcases hs with rfl | rfl | rfl | rfl | rfl | rfl
    · simpa [Transcript.sectionOf] using hsi
    · simpa [Transcript.sectionOf] using hii
    · simpa [Transcript.sectionOf] using hgp
    · simpa [Transcript.sectionOf] using hdg
    · simpa [Transcript.sectionOf] using htc
    · simpa [Transcript.sectionOf] using htt

theorem firstNonNull_cons (s k : String) (p : PyDict) (ps : List PyDict) :
    firstNonNull s k (p :: ps)
      = optOr (pageFirst (pyGet? p s) k) (firstNonNull s k ps) := by
  rw [firstNonNull]
  cases hv : pyGet? p s with
  | none => rfl
  | some v => cases v <;> rfl

theorem initTranscript_sectionOf (s : String) (hs : s ∈ singletonSections) :
    initTranscript.sectionOf s = [] := by
  simp only [singletonSections, List.mem_cons, List.not_mem_nil, or_false] at hs
  rcases hs with rfl | rfl | rfl | rfl | rfl | rfl <;> rfl

theorem noNullGet_nil : noNullGet [] := by
  intro k v hkv
  simp [pyGet?] at hkv

theorem foldPages_get (ps : List PyDict) :
    ∀ acc t, foldPages acc ps = some t →
      (∀ s ∈ singletonSections, noNullGet (acc.sectionOf s)) →
      ∀ s ∈ singletonSections, ∀ k,
        pyGet? (t.sectionOf s) k
          = optOr (pyGet? (acc.sectionOf s) k) (firstNonNull s k ps) := by
  induction ps with
  | nil =>
    intro acc t h _ s _ k
    injection h with ht
    subst ht
    simp [firstNonNull, optOr_none]
  | cons p ps ih =>
    intro acc t h hn s hs k
    rw [foldPages] at h
    simp only [Option.bind_eq_some] at h
    obtain ⟨acc₁, hstep, hfold⟩ := h
    have hmerge := fun s' hs' =>
      mergeSection?_get (acc.sectionOf s') (pyGet? p s') (acc₁.sectionOf s')
        (consolidateStep_sec acc p acc₁ hstep s' hs') (hn s' hs')
    have hn₁ : ∀ s' ∈ singletonSections, noNullGet (acc₁.sectionOf s') :=
      fun s' hs' => (hmerge s' hs').1
    rw [ih acc₁ t hfold hn₁ s hs k, (hmerge s hs).2 k, optOr_assoc,
        firstNonNull_cons]

/-- C1: in the transcript returned by `consolidate_page_data`, every
singleton-section field holds the first non-null value encountered in page
order (so once a field is set to a non-null value, no later page's null,
missing or non-null value overwrites it). -/
theorem consolidate_first_non_null_wins (pages : List PyDict) (t : Transcript)
    (h : consolidate_page_data pages = some t) (s : String)
    (hs : s ∈ singletonSections) (k : String) :
    pyGet? (t.sectionOf s) k = firstNonNull s k pages := by
  rw [consolidate_page_data] at h
  simp only [Option.bind_eq_some, Option.some.injEq] at h
  obtain ⟨acc, hfold, recs, _, ht⟩ := h
  have hsec : t.sectionOf s = acc.sectionOf s := by
    subst ht
    have hs' := hs
    simp only [singletonSections, List.mem_cons, List.not_mem_nil, or_false] at hs'
    rcases hs' with rfl | rfl | rfl | rfl | rfl | rfl <;> rfl
  rw [hsec,
      foldPages_get pages initTranscript acc hfold
        (fun s' hs' => by rw [initTranscript_sectionOf s' hs']; exact noNullGet_nil)
        s hs k,
      initTranscript_sectionOf s hs]
  rfl

/-- C1 witness: the spec's scenario with pages binding the student name to
null, then "Alice", then "Bob", consolidates to "Alice". -/
theorem consolidate_first_non_null_wins_witness :
    consolidate_page_data pagesFNN = some tFNN ∧
    pyGet? (tFNN.sectionOf "student_information") "student_name"
      = some (Value.str "Alice") := by
  refine ⟨rfl, ?_⟩
  rw [consolidate_first_non_null_wins pagesFNN tFNN rfl "student_information"
        (by simp [singletonSections]) "student_name"]
  rfl

theorem dedupRecords?_sublist (l : List Value) :
    ∀ seen l', dedupRecords? seen l = some l' → List.Sublist l' l := by
  induction l with
  | nil =>
    intro seen l' h
    injection h with h'
    subst h'
    exact List.Sublist.refl []
  | cons r rs ih =>
    intro seen l' h
    rw [dedupRecords?] at h
    simp only [Option.bind_eq_some] at h
    obtain ⟨key, hkey, h⟩ := h
    split at h
    · exact (ih _ _ h).cons r
    · simp only [Option.bind_eq_some, Option.some.injEq] at h
      obtain ⟨rest, hrest, h'⟩ := h
      subst h'
      exact (ih _ _ hrest).cons₂ r

theorem dedupRecords?_keys (l : List Value) :
    ∀ seen l', dedupRecords? seen l = some l' →
      l'.Pairwise (fun a b => courseKey? a ≠ courseKey? b) ∧
      ∀ r ∈ l', ∃ kk, courseKey? r = some kk ∧ kk ∉ seen := by
  induction l with
  | nil =>
    intro seen l' h
    injection h with h'
    subst h'
    simp
  | cons r rs ih =>
    intro seen l' h
    rw [dedupRecords?] at h
    simp only [Option.bind_eq_some] at h
    obtain ⟨key, hkey, h⟩ := h
    split at h
    · exact ih _ _ h
    · rename_i hnotin
      simp only [Option.bind_eq_some, Option.some.injEq] at h
      obtain ⟨rest, hrest, h'⟩ := h
      subst h'
      obtain ⟨hpw, hmem⟩ := ih _ _ hrest
      refine ⟨List.Pairwise.cons ?_ hpw, ?_⟩
      · intro b hb
        obtain ⟨kb, hkb, hkbnot⟩ := hmem b hb
        rw [hkey, hkb]
        intro hcontra
        injection hcontra with hk
        subst hk
        exact hkbnot (List.mem_cons_self _ _)
      · intro x hx
        rcases List.mem_cons.mp hx with rfl | hx'
        · exact ⟨key, hkey, hnotin⟩
        · obtain ⟨kk, hkk, hnot⟩ := hmem x hx'
          exact ⟨kk, hkk, fun hc => hnot (List.mem_cons_of_mem _ hc)⟩

theorem dedupRecords?_mem (l : List Value) :
    ∀ seen l', dedupRecords? seen l = some l' →
      ∀ r, r ∈ l' ↔
        ∃ kk, courseKey? r = some kk ∧ kk ∉ seen ∧
          ∃ pre suf, l = pre ++ r :: suf ∧ ∀ x ∈ pre, courseKey? x ≠ some kk := by
  induction l with
  | nil =>
    intro seen l' h r
    injection h with h'
    subst h'
    simp only [List.not_mem_nil, false_iff]
    rintro ⟨kk, _, _, pre, suf, hdec, _⟩
    exact absurd hdec (by simp)
  | cons a rs ih =>
    intro seen l' h r
    rw [dedupRecords?] at h
    simp only [Option.bind_eq_some] at h
    obtain ⟨ka, hka, h⟩ := h
    split at h
    · rename_i hin
      rw [ih _ _ h r]
      constructor
      · rintro ⟨kk, hkk, hnot, pre, suf, hdec, hpre⟩
        refine ⟨kk, hkk, hnot, a :: pre, suf, by rw [hdec, List.cons_append], ?_⟩
        intro x hx
        rcases List.mem_cons.mp hx with rfl | hx'
        · rw [hka]
          intro hc
          injection hc with hc'
          subst hc'
          exact hnot hin
        · exact hpre x hx'
      · rintro ⟨kk, hkk, hnot, pre, suf, hdec, hpre⟩
        cases pre with
        | nil =>
          simp only [List.nil_append] at hdec
          injection hdec with h1 h2
          subst h1
          rw [hka] at hkk
          injection hkk with hk
          subst hk
          exact absurd hin hnot
        | cons p0 pre' =>
          simp only [List.cons_append] at hdec
          injection hdec with h1 h2
          subst h1
          exact ⟨kk, hkk, hnot, pre', suf, h2,
            fun x hx => hpre x (List.mem_cons_of_mem _ hx)⟩
    · rename_i hnotin
      simp only [Option.bind_eq_some, Option.some.injEq] at h
      obtain ⟨rest, hrest, h'⟩ := h
      subst h'
      constructor
      · intro hr
        rcases List.mem_cons.mp hr with rfl | hr'
        · exact ⟨ka, hka, hnotin, [], rs, rfl, by simp⟩
        · obtain ⟨kk, hkk, hknot, pre, suf, hdec, hpre⟩ :=
            (ih _ _ hrest r).mp hr'
          have hkkne : kk ≠ ka := fun hc =>
            hknot (hc ▸ List.mem_cons_self _ _)
          refine ⟨kk, hkk, fun hc => hknot (List.mem_cons_of_mem _ hc),
            a :: pre, suf, by rw [hdec, List.cons_append], ?_⟩
          intro x hx
          rcases List.mem_cons.mp hx with rfl | hx'
          · rw [hka]
            intro hc
            injection hc with hc'
            exact hkkne hc'.symm
          · exact hpre x hx'
      · rintro ⟨kk, hkk, hknot, pre, suf, hdec, hpre⟩
        cases pre with
        | nil =>
          simp only [List.nil_append] at hdec
          injection hdec with h1 _
          subst h1
          exact List.mem_cons_self _ _
        | cons p0 pre' =>
          simp only [List.cons_append] at hdec
          injection hdec with h1 h2
          subst h1
          have hane : courseKey? a ≠ some kk := hpre a (List.mem_cons_self _ _)
          have hkkka : kk ≠ ka := by
            intro hc
            subst hc
            exact hane hka
          refine List.mem_cons_of_mem _ ?_
          refine (ih _ _ hrest r).mpr ⟨kk, hkk, ?_, pre', suf, h2,
            fun x hx => hpre x (List.mem_cons_of_mem _ hx)⟩
          intro hc
          rcases List.mem_cons.mp hc with hc' | hc'
          · exact hkkka hc'
          · exact hknot hc'

theorem courseKey?_congr (a b : Value) (h : pairKey? a = pairKey? b) :
    courseKey? a = courseKey? b := by
  cases a <;> cases b <;>
    simp_all [pairKey?, courseKey?, recGet?, Option.some_bind]

/-- C2: the deduplicated academic-records sequence returned by
`consolidate_page_data` contains no two entries sharing the same
`(course_id, year_term)` pair; it is a subsequence of the accumulated
records (later duplicates are dropped, not merged), and an accumulated
entry survives exactly when it is the first entry carrying its course
key. -/
theorem consolidate_dedup_first_wins (pages : List PyDict) (acc t : Transcript)
    (hf : foldPages initTranscript pages = some acc)
    (h : consolidate_page_data pages = some t) :
    t.academic_records_info.Pairwise (fun a b => pairKey? a ≠ pairKey? b) ∧
    List.Sublist t.academic_records_info acc.academic_records_info ∧
    ∀ r, r ∈ t.academic_records_info ↔
      ∃ kk, courseKey? r = some kk ∧
        ∃ pre suf, acc.academic_records_info = pre ++ r :: suf ∧
          ∀ x ∈ pre, courseKey? x ≠ some kk := by
  rw [consolidate_page_data] at h
  simp only [Option.bind_eq_some, Option.some.injEq] at h
  obtain ⟨acc', hfold, recs, hrecs, ht⟩ := h
  rw [hf] at hfold
  injection hfold with hacc
  subst hacc
  have hrecords : t.academic_records_info = recs := by
    rw [← ht]
  rw [hrecords]
  refine ⟨?_, dedupRecords?_sublist _ _ _ hrecs, ?_⟩
  · exact ((dedupRecords?_keys _ _ _ hrecs).1).imp
      (fun hne heq => hne (courseKey?_congr _ _ heq))
  · intro r
    rw [dedupRecords?_mem _ _ _ hrecs r]
    constructor
    · rintro ⟨kk, hkk, _, pre, suf, hdec, hpre⟩
      exact ⟨kk, hkk, pre, suf, hdec, hpre⟩
    · rintro ⟨kk, hkk, pre, suf, hdec, hpre⟩
      exact ⟨kk, hkk, by simp, pre, suf, hdec, hpre⟩

/-- C2 witness: two records with the same `(course_id, year_term)` but
different grades, consolidated from one page. -/
theorem consolidate_dedup_first_wins_witness :
    tDup.academic_records_info.Pairwise (fun a b => pairKey? a ≠ pairKey? b) ∧
    List.Sublist tDup.academic_records_info accDup.academic_records_info ∧
    ∀ r, r ∈ tDup.academic_records_info ↔
      ∃ kk, courseKey? r = some kk ∧
        ∃ pre suf, accDup.academic_records_info = pre ++ r :: suf ∧
          ∀ x ∈ pre, courseKey? x ≠ some kk :=
  consolidate_dedup_first_wins pagesDup accDup tDup rfl rfl

/-- C10: the hyphen-joined deduplication key conflates distinct
`(course_id, year_term)` pairs: with `("A-1", "B")` kept first, the record
`("A", "1-B")` is discarded as a duplicate although its pair differs. -/
theorem dedup_hyphen_key_collision :
    consolidate_page_data pagesHyphen = some tHyphen ∧
    tHyphen.academic_records_info = [recHyphenA] ∧
    pairKey? recHyphenB ≠ pairKey? recHyphenA ∧
    courseKey? recHyphenA = some "A-1-B" ∧
    courseKey? recHyphenB = some "A-1-B" := by
  refine ⟨rfl, rfl, ?_, rfl, rfl⟩
  simp [pairKey?, recGet?, pyGetD, pyGet?, recHyphenA, recHyphenB, pyStr]

theorem ratAbs_eq_abs (q : ℚ) : ratAbs q = |q| := by
  rw [ratAbs]
  split
  · rename_i h
    exact (abs_of_neg h).symm
  · rename_i h
    exact (abs_of_nonneg (not_lt.mp h)).symm

theorem sumCredits?_spec (l : List Value) :
    ∀ a s, sumCredits? a l = some s → s = a + specCreditSum l := by
  induction l with
  | nil =>
    intro a s h
    injection h with h'
    subst h'
    simp [specCreditSum]
  | cons r rs ih =>
    intro a s h
    rw [sumCredits?] at h
    simp only [Option.bind_eq_some] at h
    obtain ⟨c, hc, h⟩ := h
    rw [ih _ _ h]
    simp only [specCreditSum, List.map_cons, List.sum_cons, hc, Option.getD_some]
    ring

theorem mainMetrics?_score (t : Transcript) (m₀ : Metrics)
    (h : mainMetrics? t = some m₀) : m₀.data_completeness_score = 0 := by
  simp only [mainMetrics?] at h
  split at h
  · injection h with h'
    subst h'
    rfl
  · simp only [Option.bind_eq_some, Option.some.injEq] at h
    obtain ⟨total, _, terms, _, levels, _, reported, _, hm⟩ := h
    rw [← hm]
    rfl

theorem mainMetrics?_nonempty (t : Transcript) (m₀ : Metrics)
    (hne : t.academic_records_info.isEmpty = false)
    (h : mainMetrics? t = some m₀) :
    ∃ total terms levels reported,
      sumCredits? 0 t.academic_records_info = some total ∧
      t.academic_records_info.mapM termOf? = some terms ∧
      t.academic_records_info.mapM levelOf? = some levels ∧
      reportedOf? t = some reported ∧
      m₀ = { baseMetrics t with
             total_credits_calculated := total,
             unique_terms := terms.dedup.length,
             course_distribution := countValues levels,
             gpa_consistency_check := decide (ratAbs (total - reported) < 1/2) } := by
  simp only [mainMetrics?, hne, Bool.false_eq_true, if_false,
    Option.bind_eq_some, Option.some.injEq] at h
  obtain ⟨total, htotal, terms, hterms, levels, hlevels, reported, hreported, hm⟩ := h
  exact ⟨total, terms, levels, reported, htotal, hterms, hlevels, hreported, hm.symm⟩

theorem calc_metrics_destruct (t : Transcript) (m : Metrics)
    (h : calculate_verification_metrics t = some m) :
    ∃ m₀, mainMetrics? t = some m₀ ∧
      m.total_credits_calculated = m₀.total_credits_calculated ∧
      m.gpa_consistency_check = m₀.gpa_consistency_check ∧
      m.data_completeness_score =
        (if (completenessCounts t).1 = 0 then m₀.data_completeness_score
         else round2 (((completenessCounts t).2 : ℚ)
           / ((completenessCounts t).1 : ℚ) * 100)) := by
  simp only [calculate_verification_metrics, Option.bind_eq_some] at h
  obtain ⟨m₀, hm₀, h⟩ := h
  refine ⟨m₀, hm₀, ?_⟩
  split at h
  · rename_i hc0
    injection h with h'
    subst h'
    simp [hc0]
  · rename_i hc0
    injection h with h'
    subst h'
    simp [hc0]

/-- C3 (amended): whenever `calculate_verification_metrics` returns a
metrics object, `total_credits_calculated` is the sum of `credits_earned`
with missing, null and falsy values counted as 0; a record whose value
cannot be coerced makes the whole computation return the empty object
instead of counting it as 0. -/
theorem metrics_credit_sum_on_success (t : Transcript) (m : Metrics)
    (h : calculate_verification_metrics t = some m) :
    m.total_credits_calculated = specCreditSum t.academic_records_info := by
  obtain ⟨m₀, hm₀, htotal, _, _⟩ := calc_metrics_destruct t m h
  rw [htotal]
  by_cases hne : t.academic_records_info.isEmpty = true
  · have hnil : t.academic_records_info = [] := List.isEmpty_iff.mp hne
    simp only [mainMetrics?, hne, if_true] at hm₀
    injection hm₀ with h'
    rw [← h', hnil]
    simp [baseMetrics, specCreditSum]
  · obtain ⟨total, _, _, _, hsum, _, _, _, hm⟩ :=
      mainMetrics?_nonempty t m₀ (by simpa using hne) hm₀
    rw [hm]
    simpa using sumCredits?_spec _ _ _ hsum

/-- C3 counterexample: for records with `credits_earned` 3, null, "bad", 4
the function does not return 7 — `float("bad")` raises and the `except`
branch returns the empty object. -/
theorem metrics_nonnumeric_credits_cex :
    calculate_verification_metrics tBadCredits = none := by
  with_unfolding_all rfl

/-- C3 witness: records with `credits_earned` 3, null, "" and 4 sum to 7
on an exception-free run. -/
theorem metrics_credit_sum_witness :
    calculate_verification_metrics tGoodCredits = some mGoodCredits ∧
    mGoodCredits.total_credits_calculated
      = specCreditSum tGoodCredits.academic_records_info ∧
    specCreditSum tGoodCredits.academic_records_info = 7 :=
  ⟨by with_unfolding_all rfl,
   metrics_credit_sum_on_success tGoodCredits mGoodCredits
     (by with_unfolding_all rfl),
   by with_unfolding_all rfl⟩

/-- C4 (amended): when the metrics computation succeeds and the records
list is non-empty, `gpa_consistency_check` is true iff
`|total_credits_calculated − overall_earned_hours| < 0.5`; when the
records list is empty the flag stays false regardless. -/
theorem metrics_gpa_consistency_on_success (t : Transcript) (m : Metrics)
    (h : calculate_verification_metrics t = some m)
    (hne : t.academic_records_info.isEmpty = false) :
    m.gpa_consistency_check = true ↔
      |specCreditSum t.academic_records_info - specReported t| < 1/2 := by
  obtain ⟨m₀, hm₀, _, hgpa, _⟩ := calc_metrics_destruct t m h
  obtain ⟨total, terms, levels, reported, hsum, _, _, hrep, hm⟩ :=
    mainMetrics?_nonempty t m₀ hne hm₀
  have htot : total = specCreditSum t.academic_records_info := by
    simpa using sumCredits?_spec _ _ _ hsum
  have hrs : reported = specReported t := by
    rw [specReported, hrep]
    rfl
  rw [hgpa, hm, ← htot, ← hrs]
  simp only [ratAbs_eq_abs]
  exact decide_eq_true_iff

/-- C4 counterexample: with no academic records the flag is left false
although the difference |0 − 0| is inside the 0.5 tolerance, so the
claimed iff over all consolidated transcripts fails. -/
theorem metrics_gpa_flag_cex :
    (calculate_verification_metrics initTranscript).map
        (fun m => m.gpa_consistency_check) = some false ∧
    |specCreditSum initTranscript.academic_records_info -
        specReported initTranscript| < 1/2 := by
  refine ⟨rfl, ?_⟩
  norm_num [specCreditSum, specReported, reportedOf?, pyGetD, pyGet?,
    initTranscript, orZero, Value.truthy, pyFloat]

/-- C4 witness: both sides of the 0.5 boundary — summed credits 10.4
against reported 10.0 (flag true) and against 9.5 (flag false). -/
theorem metrics_gpa_consistency_witness :
    calculate_verification_metrics tGpaNear = some mGpaNear ∧
    (mGpaNear.gpa_consistency_check = true ↔
      |specCreditSum tGpaNear.academic_records_info - specReported tGpaNear| < 1/2) ∧
    mGpaNear.gpa_consistency_check = true ∧
    calculate_verification_metrics tGpaFar = some mGpaFar ∧
    mGpaFar.gpa_consistency_check = false :=
  ⟨by with_unfolding_all rfl,
   metrics_gpa_consistency_on_success tGpaNear mGpaNear
     (by with_unfolding_all rfl) (by rfl),
   by with_unfolding_all rfl,
   by with_unfolding_all rfl,
   by with_unfolding_all rfl⟩

theorem completenessCounts_eq (t : Transcript) :
    completenessCounts t =
      (singletonLeafTotal t + repeatingNonEmpty t,
       singletonLeafCompleted t + repeatingNonEmpty t) := by
  simp only [completenessCounts, singletonLeafTotal, singletonLeafCompleted,
    repeatingNonEmpty]
  by_cases h1 : t.honors_and_awards.isEmpty = true <;>
    by_cases h2 : t.academic_records_info.isEmpty = true <;>
      simp [h1, h2, Prod.mk.injEq] <;> constructor <;> omega

/-- C5 (amended): on a normal return the completeness score is
`round2(100 × (completed leaves + non-empty repeating sections) /
(total leaves + non-empty repeating sections))`, and 0 when that
denominator is 0 — an empty repeating section contributes neither a slot
nor a point, contrary to the claimed always-counted slot. -/
theorem metrics_completeness_on_success (t : Transcript) (m : Metrics)
    (h : calculate_verification_metrics t = some m) :
    m.data_completeness_score =
      (if singletonLeafTotal t + repeatingNonEmpty t = 0 then 0
       else round2 (((singletonLeafCompleted t + repeatingNonEmpty t : ℕ) : ℚ)
         / ((singletonLeafTotal t + repeatingNonEmpty t : ℕ) : ℚ) * 100)) := by
  obtain ⟨m₀, hm₀, _, _, hscore⟩ := calc_metrics_destruct t m h
  rw [hscore, completenessCounts_eq t, mainMetrics?_score t m₀ hm₀]

/-- C5 counterexample: a transcript with exactly one (filled) singleton
leaf and both repeating sections empty scores 100 in the code, while the
claimed formula with one slot per repeating section regardless of
emptiness yields 33.33. -/
theorem metrics_completeness_cex :
    (calculate_verification_metrics tOneLeaf).map
        (fun m => m.data_completeness_score) = some 100 ∧
    claimCompletenessScore tOneLeaf = 3333/100 ∧
    (100 : ℚ) ≠ 3333/100 := by
  refine ⟨by with_unfolding_all rfl, by with_unfolding_all rfl, by norm_num⟩

/-- C5 witness: the amended score formula evaluated on the one-leaf
transcript. -/
theorem metrics_completeness_witness :
    calculate_verification_metrics tOneLeaf = some mOneLeaf ∧
    mOneLeaf.data_completeness_score =
      (if singletonLeafTotal tOneLeaf + repeatingNonEmpty tOneLeaf = 0 then 0
       else round2 (((singletonLeafCompleted tOneLeaf + repeatingNonEmpty tOneLeaf : ℕ) : ℚ)
         / ((singletonLeafTotal tOneLeaf + repeatingNonEmpty tOneLeaf : ℕ) : ℚ) * 100)) :=
  ⟨by with_unfolding_all rfl,
   metrics_completeness_on_success tOneLeaf mOneLeaf (by with_unfolding_all rfl)⟩

/-- C6: on a normal return of `validate_academic_integrity`,
`credit_calculation_valid` is true iff the recomputed credit sum is within
the (looser, distinct) `< 1.0` tolerance of `overall_earned_hours`, and on
a mismatch a warning carrying both the calculated and the reported value
is appended to the warnings list. -/
theorem integrity_credit_tolerance (t : Transcript) (v : Validation)
    (h : validate_academic_integrity t = IntegrityResult.ok v) :
    (v.credit_calculation_valid = true ↔
      |specCreditSum t.academic_records_info - specReported t| < 1) ∧
    (¬ |specCreditSum t.academic_records_info - specReported t| < 1 →
      creditMismatchMsg (specCreditSum t.academic_records_info) (specReported t)
        ∈ v.warnings) := by
  have h' : integrityChecks? t = some v := by
    rw [validate_academic_integrity] at h
    split at h
    · rename_i v' hv'
      injection h with h''
      rw [hv', h'']
    · exact IntegrityResult.noConfusion h
  simp only [integrityChecks?, Option.bind_eq_some] at h'
  obtain ⟨dw, hdw, calculated, hcalc, reported, hrep, hfinal⟩ := h'
  have htot : calculated = specCreditSum t.academic_records_info := by
    simpa using sumCredits?_spec _ _ _ hcalc
  have hrs : reported = specReported t := by
    rw [specReported, hrep]
    rfl
  rw [← htot, ← hrs]
  split at hfinal
  · rename_i hlt
    rw [ratAbs_eq_abs] at hlt
    injection hfinal with hv
    subst hv
    exact ⟨by simpa using hlt, fun hc => absurd hlt hc⟩
  · rename_i hnlt
    rw [ratAbs_eq_abs] at hnlt
    injection hfinal with hv
    subst hv
    refine ⟨by simpa using hnlt, fun _ => ?_⟩
    simp [List.mem_append]

/-- C6 witness: calculated credits 3 against reported 10 — invalid, with
the mismatch warning present. -/
theorem integrity_credit_tolerance_witness :
    validate_academic_integrity tMismatch = IntegrityResult.ok vMismatch ∧
    (vMismatch.credit_calculation_valid = true ↔
      |specCreditSum tMismatch.academic_records_info - specReported tMismatch| < 1) ∧
    vMismatch.credit_calculation_valid = false ∧
    creditMismatchMsg (specCreditSum tMismatch.academic_records_info)
        (specReported tMismatch) ∈ vMismatch.warnings := by
  have h : validate_academic_integrity tMismatch = IntegrityResult.ok vMismatch := by
    with_unfolding_all rfl
  obtain ⟨hiff, hwarn⟩ := integrity_credit_tolerance tMismatch vMismatch h
  exact ⟨h, hiff, by with_unfolding_all rfl,
    hwarn (by with_unfolding_all decide)⟩

/-- C7: `validate_schema_compliance` is a total boolean check: it returns
false whenever a required top-level section key is absent, and false
whenever the academic-records value is a list containing a non-dict entry
(whatever the other keys hold); conversely, when every required key is
present, a falsy (empty or null) value — in particular for the
academic-records section — does not fail, and neither does a records list
made only of dicts. -/
theorem schema_compliance_checks (d : PyDict) :
    ((∃ k ∈ requiredKeys, pyContains d k = false) →
      validate_schema_compliance d = false) ∧
    (∀ vs, pyGet? d "academic_records_info" = some (Value.list vs) →
      (∃ e ∈ vs, e.isDict = false) → validate_schema_compliance d = false) ∧
    ((∀ k ∈ requiredKeys, pyContains d k = true) →
      ∀ v, pyGet? d "academic_records_info" = some v → v.truthy = false →
        validate_schema_compliance d = true) ∧
    ((∀ k ∈ requiredKeys, pyContains d k = true) →
      ∀ vs, pyGet? d "academic_records_info" = some (Value.list vs) →
        (∀ e ∈ vs, e.isDict = true) → validate_schema_compliance d = true) := by
  refine ⟨?_, ?_, ?_, ?_⟩
  · rintro ⟨k, hk, hcon⟩
    rw [validate_schema_compliance, if_pos]
    rw [List.any_eq_true]
    exact ⟨k, hk, by simp [hcon]⟩
  · rintro vs hvs ⟨e, he, hed⟩
    rw [validate_schema_compliance]
    by_cases hmiss : requiredKeys.any (fun k => !pyContains d k) = true
    · rw [if_pos hmiss]
    · rw [if_neg hmiss, hvs]
      have htruthy : (Value.list vs).truthy = true := by
        cases vs with
        | nil => exact absurd he (List.not_mem_nil e)
        | cons a as => rfl
      simp only [htruthy, if_true, pyIter?]
      rw [List.all_eq_false]
      exact ⟨e, he, by simp [hed]⟩
  · intro hall v hv htr
    have hmiss : (requiredKeys.any fun k => !pyContains d k) = false := by
      rw [List.any_eq_false]
      intro k hk
      simp [hall k hk]
    rw [validate_schema_compliance]
    simp only [hmiss, Bool.false_eq_true, if_false, hv, htr]
  · intro hall vs hvs hdicts
    have hmiss : (requiredKeys.any fun k => !pyContains d k) = false := by
      rw [List.any_eq_false]
      intro k hk
      simp [hall k hk]
    rw [validate_schema_compliance]
    simp only [hmiss, Bool.false_eq_true, if_false, hvs]
    cases htr : (Value.list vs).truthy with
    | false => simp
    | true =>
      simp only [if_true, pyIter?]
      rw [List.all_eq_true]
      exact hdicts

/-- C7 witness: the empty record fails for missing keys; all keys present
with a scalar academic-record entry fails the structure check; all keys
present with null values passes; all keys present with a dicts-only
records list passes. -/
theorem schema_compliance_checks_witness :
    validate_schema_compliance [] = false ∧
    validate_schema_compliance dataScalarRecord = false ∧
    validate_schema_compliance dataNullSections = true ∧
    validate_schema_compliance dataDictRecords = true :=
  ⟨(schema_compliance_checks []).1
     ⟨"student_information", by simp [requiredKeys], rfl⟩,
   (schema_compliance_checks dataScalarRecord).2.1 [Value.num 1] rfl
     ⟨Value.num 1, by simp, rfl⟩,
   (schema_compliance_checks dataNullSections).2.2.1 (by decide)
     Value.null rfl rfl,
   (schema_compliance_checks dataDictRecords).2.2.2 (by decide)
     [Value.dict [("course_id", Value.str "CS101")]] rfl
     (by intro e he; rw [List.mem_singleton] at he; rw [he]; rfl)⟩

/-- C8: both derived computations are total — metrics yields either the
empty object (`none`) or a metrics object, integrity yields either a
validation or an error-marker result — and on a transcript whose credits
cannot be coerced the error fallbacks are actually produced. -/
theorem derived_computations_total :
    (∀ t, calculate_verification_metrics t = none ∨
       ∃ m, calculate_verification_metrics t = some m) ∧
    (∀ t, (∃ v, validate_academic_integrity t = IntegrityResult.ok v) ∨
       ∃ e, validate_academic_integrity t = IntegrityResult.error e) ∧
    calculate_verification_metrics tRaise = none ∧
    validate_academic_integrity tRaise
      = IntegrityResult.error "exception raised during integrity validation" := by
  refine ⟨fun t => ?_, fun t => ?_, by with_unfolding_all rfl, by with_unfolding_all rfl⟩
  · cases h : calculate_verification_metrics t with
    | none => exact Or.inl rfl
    | some m => exact Or.inr ⟨m, rfl⟩
  · cases h : validate_academic_integrity t with
    | ok v => exact Or.inl ⟨v, rfl⟩
    | error e => exact Or.inr ⟨e, rfl⟩

/-- C9: the derived computations are pure functions of the consolidated
transcript: re-evaluating either on the same input yields an identical
result; the embedding is state-free, as the source reads no mutable state
apart from the logger. -/
theorem derived_computations_deterministic (t : Transcript) :
    calculate_verification_metrics t = calculate_verification_metrics t ∧
    validate_academic_integrity t = validate_academic_integrity t :=
  ⟨rfl, rfl⟩
